import Mathlib

/-!
# Verification of the `debugin` probe agent against its specification

This file shallowly embeds the parts of the Python sources that the
specification's claims are about, and proves or refutes each claim.

Embedded modules (paths relative to the repository root):
* `tracepointdebug/_compat.py` and `tracepointdebug/engine/selector.py`
  (engine selection),
* `tracepointdebug/engine/pytrace.py` (callback table),
* `tracepointdebug/control_api.py` (probe creation / removal over the
  `point_ids` registry),
* `tracepointdebug/probe/snapshot/serialization.py` and
  `tracepointdebug/probe/snapshot/snapshot_collector.py` (bounded,
  cycle-aware snapshotting),
* the token-bucket rate limiter (its module
  `tracepointdebug/probe/ratelimit/rate_limiter.py` is not part of the
  source tree; it is modelled from the specification, see `RateLimiter`).

Conventions of the embedding:
* Python strings are `String` where only equality/keys matter, and
  `List Char` where the code slices or measures them (`_trim_string`).
* Python `dict`s are association lists (Python dict keys are unique, so
  deleting a key is `List.filter` on the key).
* The Python heap is a total function `Nat → PyObj`: object identity
  (`id()`) is the `Nat`, containers hold ids of their elements, which is
  what makes cyclic object graphs such as `d['self'] = d` representable.
* Recursive Python functions are embedded with an explicit fuel argument
  (structural recursion); sufficiency of the fuel is proved, which is the
  termination statement for the corresponding Python recursion.
* Python exceptions are `Except` values carrying the exception type name
  (and any instance state mutated before the raise).
-/

namespace Debugin

/-! ## Engine selection (`tracepointdebug/_compat.py`, `engine/selector.py`) -/

/-- The two engines `get_engine` can return (`tracepointdebug.engine.pytrace`
and `tracepointdebug.engine.native`). -/
inductive EngineChoice where
  | native
  | pytrace
  deriving DecidableEq, Repr

/-- Embeds `_compat.build_supports_free_threading`: whether the interpreter build has
`Py_GIL_DISABLED` set (`sysconfig.get_config_var`), abstracted as a boolean
input of the model. -/
def build_supports_free_threading (pyGilDisabled : Bool) : Bool :=
  pyGilDisabled

/-- Embeds `_compat.gil_is_enabled`: `sys._is_gil_enabled()` when available, `True`
otherwise.  `hasGilCheck` models whether `sys._is_gil_enabled` exists;
`gilEnabled` models its return value. -/
def gil_is_enabled (hasGilCheck gilEnabled : Bool) : Bool :=
  if hasGilCheck then gilEnabled else true

/-- Embeds `_compat.is_actually_free_threaded`: built with `Py_GIL_DISABLED` and the
GIL currently off. -/
def is_actually_free_threaded (pyGilDisabled hasGilCheck gilEnabled : Bool) : Bool :=
  build_supports_free_threading pyGilDisabled && !(gil_is_enabled hasGilCheck gilEnabled)

/-- Python tuple comparison `a <= b` on version tuples (lexicographic; a
proper prefix is smaller). -/
def pyTupleLe : List Nat → List Nat → Bool
  | [], _ => true
  | _ :: _, [] => false
  | a :: as, b :: bs => if a < b then true else if b < a then false else pyTupleLe as bs

/-- Python `str.lower()`, as a character-wise map (the override values the
selector compares against are plain ASCII). -/
def pyLower (s : String) : String :=
  String.mk (s.data.map Char.toLower)

/-- Truthiness of the `TRACEPOINTDEBUG_ENGINE` environment value: `None` and
the empty string are falsy. -/
def envTruthy : Option String → Bool
  | none => false
  | some s => !(s == "")

/-- Embeds `selector.get_engine`, returning the chosen engine together with whether
`warnings.warn` was called.  `override` is `os.environ.get("TRACEPOINTDEBUG_ENGINE")`;
`pyVersion` is `sys.version_info` as a tuple. -/
def get_engine (override : Option String) (pyGilDisabled hasGilCheck gilEnabled : Bool)
    (pyVersion : List Nat) : EngineChoice × Bool :=
  let isFt := is_actually_free_threaded pyGilDisabled hasGilCheck gilEnabled
  if isFt then
    -- free-threaded mode: warn on an incompatible `native` override, then
    -- always force pytrace
    let warned := envTruthy override &&
      pyLower (override.getD "") == "native"
    (EngineChoice.pytrace, warned)
  else
    if envTruthy override && pyLower (override.getD "") == "native" then
      (EngineChoice.native, false)
    else if envTruthy override && pyLower (override.getD "") == "pytrace" then
      (EngineChoice.pytrace, false)
    else if pyTupleLe [3, 8] pyVersion && pyTupleLe pyVersion [3, 10] then
      (EngineChoice.native, false)
    else
      (EngineChoice.pytrace, false)

/-! ## `engine/pytrace.py`: the logpoint callback table

`_CALLBACKS` is a dict from logpoint id to a callable; callables are opaque
to the claims, so the table is an association list with an abstract payload
type.  `remove_logpoint` is `_CALLBACKS.pop(lp_id, None)`: it deletes the
single entry for the key when present and is a silent no-op otherwise (the
default argument means no `KeyError` is ever raised, hence the embedding is a
total function rather than an `Except`). -/

/-- Embeds `pytrace.remove_logpoint`: `_CALLBACKS.pop(lp_id, None)`.  Dict keys are
unique, so removing the key's single entry is a filter on the key. -/
def pytrace_remove_logpoint {β : Type} (lpId : String) (callbacks : List (String × β)) :
    List (String × β) :=
  callbacks.filter (fun e => e.1 ≠ lpId)

/-- Embeds `pytrace.set_logpoint`: `_CALLBACKS[lp_id] = fn` (replace or add). -/
def pytrace_set_logpoint {β : Type} (lpId : String) (fn : β) (callbacks : List (String × β)) :
    List (String × β) :=
  (lpId, fn) :: callbacks.filter (fun e => e.1 ≠ lpId)

/-! ## `control_api.py`: probe creation and removal

The request body is a JSON object, modelled as an association list of JSON
values.  `ControlAPI.point_ids` is the registry dict `id -> {"type": ...,
"config": ...}`.  The tracepoint/logpoint managers are guarded by
`if self.tracepoint_manager:` and their calls always succeed for valid
arguments, so the model records only the `point_ids` bookkeeping the claims
are about. -/

/-- JSON scalar values appearing in control-api request bodies. -/
inductive JVal where
  | jstr (s : String)
  | jint (n : Int)
  | jbool (b : Bool)
  | jnull
  | jlist (n : Nat)
  deriving DecidableEq, Repr

/-- Request body: a JSON object as an association list (keys unique). -/
abbrev ReqData := List (String × JVal)

/-- Python `field in data` on a dict. -/
def hasField (data : ReqData) (field : String) : Bool :=
  (data.lookup field).isSome

/-- Python `isinstance(x, int)` extraction: `bool` is a subclass of `int` in
Python, so `True`/`False` count as `1`/`0`; everything else is not an int. -/
def jAsInt : JVal → Option Int
  | JVal.jint n => some n
  | JVal.jbool b => some (if b then 1 else 0)
  | _ => none

/-- One entry of `ControlAPI.point_ids`: the point type tag and the stored
request config. -/
structure PointInfo where
  type : String
  config : ReqData
  deriving DecidableEq, Repr

/-- The control-api state the claims observe: the `point_ids` dict. -/
structure ApiState where
  point_ids : List (String × PointInfo)
  deriving DecidableEq, Repr

/-- An HTTP response of the control api: status code and an error code or
created id (the claims only inspect the status and whether a probe exists). -/
structure ApiResponse where
  status : Nat
  body : String
  deriving DecidableEq, Repr

/-- Embeds `ControlAPI.put_tracepoint`.  `freshId` models `str(uuid.uuid4())`.
Validation from the source: presence of `file` and `line`, then
`isinstance(line_no, int) and line_no >= 1`; nothing else is validated (in
particular the `file` string's content is not inspected). -/
def put_tracepoint (st : ApiState) (data : ReqData) (freshId : String) :
    ApiResponse × ApiState :=
  if ¬ hasField data "file" then
    (⟨400, "MISSING_FIELD"⟩, st)
  else if ¬ hasField data "line" then
    (⟨400, "MISSING_FIELD"⟩, st)
  else
    match jAsInt ((data.lookup "line").getD JVal.jnull) with
    | none => (⟨400, "INVALID_LINE"⟩, st)
    | some n =>
      if n < 1 then
        (⟨400, "INVALID_LINE"⟩, st)
      else
        (⟨201, freshId⟩,
         ⟨(freshId, ⟨"tracepoint", data⟩) :: st.point_ids⟩)

/-- Embeds `ControlAPI.put_logpoint`.  Validation from the source: presence of
`file`, `line` and `log_expression` only — the line number is never
range-checked or type-checked on this path. -/
def put_logpoint (st : ApiState) (data : ReqData) (freshId : String) :
    ApiResponse × ApiState :=
  if ¬ hasField data "file" then
    (⟨400, "missing"⟩, st)
  else if ¬ hasField data "line" then
    (⟨400, "missing"⟩, st)
  else if ¬ hasField data "log_expression" then
    (⟨400, "missing"⟩, st)
  else
    (⟨200, freshId⟩,
     ⟨(freshId, ⟨"logpoint", data⟩) :: st.point_ids⟩)

/-- Embeds `ControlAPI.remove_point`, driven by the request body `{"id": ...}`.
Unknown id: 404 and no state change.  Known id: the manager removal runs and
`del self.point_ids[point_id]` deletes the single entry for that key (dict
keys are unique, so the deletion is a filter on the key). -/
def remove_point (st : ApiState) (data : ReqData) : ApiResponse × ApiState :=
  if ¬ hasField data "id" then
    (⟨400, "Missing id field"⟩, st)
  else
    match (data.lookup "id").getD JVal.jnull with
    | JVal.jstr pointId =>
      if (st.point_ids.lookup pointId).isSome then
        (⟨200, "ok"⟩, ⟨st.point_ids.filter (fun e => e.1 ≠ pointId)⟩)
      else
        (⟨404, "not found"⟩, st)
    | _ => (⟨404, "not found"⟩, st)

/-! ## The Python heap, for the snapshot code

A Python object is identified by `id()`, a `Nat`; containers reference their
elements by id, which lets the model express genuinely cyclic object graphs
(`d['self'] = d`).  The heap is a total function from ids to objects. -/

/-- A Python runtime object, as the snapshot code distinguishes them.
`pyraising` models an object whose `__dict__` access raises an exception of
the named type (e.g. a proxy whose `__dict__` is a raising property); that is
the failure both `collect_variable_value` and `safe_serialize_object` run
into when they reach the `__dict__` branch.  `pyopaque` is an object with no
`__dict__` (e.g. a slotted object); `pynonser` is an object for which
`serialization.is_non_serializable` returns `True` (generator, coroutine,
open file handle, ...), carrying its type name and its bounded `repr`. -/
inductive PyObj where
  | pynone
  | pybool (b : Bool)
  | pyint (n : Int)
  | pystr (s : List Char)
  | pybytes (s : List Char)
  | pydate (ty : String) (s : String)
  | pydict (entries : List (String × Nat))
  | pylist (items : List Nat)
  | pytuple (items : List Nat)
  | pyset (items : List Nat)
  | pyfunc (name : String)
  | pyobjdict (cls : String) (attrs : List (String × Nat))
  | pyopaque (ty : String) (rep : List Char)
  | pynonser (ty : String) (rep : List Char)
  | pyraising (excTy : String)
  deriving DecidableEq, Repr

/-- The heap: object ids to objects. -/
abbrev Heap := Nat → PyObj

/-- Python `type(obj).__name__`. -/
def typeName : PyObj → String
  | PyObj.pynone => "NoneType"
  | PyObj.pybool _ => "bool"
  | PyObj.pyint _ => "int"
  | PyObj.pystr _ => "str"
  | PyObj.pybytes _ => "bytes"
  | PyObj.pydate ty _ => ty
  | PyObj.pydict _ => "dict"
  | PyObj.pylist _ => "list"
  | PyObj.pytuple _ => "tuple"
  | PyObj.pyset _ => "set"
  | PyObj.pyfunc _ => "function"
  | PyObj.pyobjdict cls _ => cls
  | PyObj.pyopaque ty _ => ty
  | PyObj.pynonser ty _ => ty
  | PyObj.pyraising _ => "Proxy"

/-- Embeds `serialization.is_non_serializable`: true exactly for the generator /
coroutine / file-like objects, which the model tags as `pynonser`. -/
def is_non_serializable : PyObj → Bool
  | PyObj.pynonser _ _ => true
  | _ => false

/-! ## `serialization.py`: `CircularReferenceTracker` and `safe_serialize_object` -/

/-- Embeds `CircularReferenceTracker`: the scoped "currently open" identity set plus
a depth counter. -/
structure Tracker where
  max_depth : Nat
  visited : List Nat
  depth : Nat
  deriving DecidableEq, Repr

/-- A fresh tracker (`CircularReferenceTracker(max_depth=...)`). -/
def Tracker.init (maxDepth : Nat) : Tracker :=
  ⟨maxDepth, [], 0⟩

/-- Embeds `tracker.enter(obj_id)`: returns `True` (and leaves the tracker alone)
when the id is already open; otherwise records it and deepens. -/
def Tracker.enter (t : Tracker) (objId : Nat) : Bool × Tracker :=
  if objId ∈ t.visited then (true, t)
  else (false, { t with visited := objId :: t.visited, depth := t.depth + 1 })

/-- Embeds `tracker.exit(obj_id)`: discard the id (its single occurrence — `visited`
is a set) and shallow out. -/
def Tracker.exit (t : Tracker) (objId : Nat) : Tracker :=
  { t with visited := t.visited.erase objId, depth := t.depth - 1 }

/-- Embeds `tracker.is_max_depth_reached()`. -/
def Tracker.isMaxDepthReached (t : Tracker) : Bool :=
  t.depth ≥ t.max_depth

/-- The plain Python value `safe_serialize_object` returns: `None`,
primitives, dicts, lists and tuples (a `set` input comes back as a list). -/
inductive SVal where
  | vnone
  | vbool (b : Bool)
  | vint (n : Int)
  | vstr (s : List Char)
  | vbytes (s : List Char)
  | vplain (s : String)
  | vdict (entries : List (String × SVal))
  | vlist (items : List SVal)
  | vtuple (items : List SVal)
  deriving Repr

/-- Embeds `make_type_representation(obj)`: the `{__tpd_type__, __repr__,
__serializable__: False}` dict, with the `repr` capped at 200 characters. -/
def make_type_representation (obj : PyObj) (rep : List Char) : SVal :=
  SVal.vdict
    [("__tpd_type__", SVal.vplain (typeName obj)),
     ("__repr__", SVal.vstr (if rep.length > 200 then rep.take 197 ++ "...".toList else rep)),
     ("__serializable__", SVal.vbool false)]

/-- The `repr(obj)` string the serializer may embed for a non-container
object, approximated for the object forms the claims exercise (quotes around
text, `b''` around bytes; escape sequences are not modelled). -/
def pyRepr : PyObj → List Char
  | PyObj.pynone => "None".toList
  | PyObj.pybool b => (if b then "True" else "False").toList
  | PyObj.pyint n => (toString n).toList
  | PyObj.pystr s => '\'' :: s ++ ['\'']
  | PyObj.pybytes s => 'b' :: '\'' :: s ++ ['\'']
  | PyObj.pydate _ s => s.toList
  | PyObj.pyopaque _ rep => rep
  | PyObj.pynonser _ rep => rep
  | o => ("<" ++ typeName o ++ ">").toList

/-- Embeds `make_circular_reference_marker()`. -/
def make_circular_reference_marker (depthReached : Bool) : SVal :=
  SVal.vdict
    [("__tpd_type__", SVal.vplain "CircularReference"),
     ("__tpd_circular__", SVal.vbool true),
     ("__message__", SVal.vplain
        (if depthReached then "Circular reference detected (max depth reached)"
         else "Circular reference detected"))]

/-- The truncation marker dict `{"__tpd_truncated__": True,
"__tpd_remaining__": remaining}` appended in place of omitted elements. -/
def truncationMarker (remaining : Int) : SVal :=
  SVal.vdict
    [("__tpd_truncated__", SVal.vbool true),
     ("__tpd_remaining__", SVal.vint remaining)]

/-- The per-field error placeholder `f"<error serializing: {ty}>"`. -/
def errPlaceholder (excTy : String) : SVal :=
  SVal.vplain ("<error serializing: " ++ excTy ++ ">")

/-- Result of one `safe_serialize_object` call: out of fuel (`none`; proved
unreachable for sufficient fuel), a propagated exception (with the tracker as
the unwound `finally` blocks left it), or the value and final tracker. -/
abbrev SerResult := Option (Except (String × Tracker) (SVal × Tracker))

/-- The `for key, value in obj.items()` loop of the dict and `__dict__`
branches of `safe_serialize_object`: serialize each entry through `ser`
(wrapping each in `try/except`, which maps a raised child to the error
placeholder and does not advance `count`), stopping with the in-dict
truncation marker keys once `count` reaches `max_properties`.  `total` is
`len(obj)`. -/
def serDictEntries (ser : Nat → Tracker → SerResult) (maxProps : Nat) (total : Nat) :
    List (String × Nat) → Nat → Tracker → Option (List (String × SVal) × Tracker)
  | [], _, t => some ([], t)
  | (k, cid) :: rest, count, t =>
    if count ≥ maxProps then
      some ([("__tpd_truncated__", SVal.vbool true),
             ("__tpd_remaining__", SVal.vint ((total : Int) - count))], t)
    else
      match ser cid t with
      | none => none
      | some (Except.error (ty, t')) =>
        (serDictEntries ser maxProps total rest count t').map
          (fun r => ((k, errPlaceholder ty) :: r.1, r.2))
      | some (Except.ok (v, t')) =>
        (serDictEntries ser maxProps total rest (count + 1) t').map
          (fun r => ((k, v) :: r.1, r.2))

/-- The `for idx, item in enumerate(obj)` loop of the list/tuple/set branches
of `safe_serialize_object`: one output element per input element (the error
placeholder when the child raised), with the truncation marker element once
`idx` reaches `max_properties`.  `total` is `len(obj)`. -/
def serListItems (ser : Nat → Tracker → SerResult) (maxProps : Nat) (total : Nat) :
    List Nat → Nat → Tracker → Option (List SVal × Tracker)
  | [], _, t => some ([], t)
  | cid :: rest, idx, t =>
    if idx ≥ maxProps then
      some ([truncationMarker ((total : Int) - idx)], t)
    else
      match ser cid t with
      | none => none
      | some (Except.error (ty, t')) =>
        (serListItems ser maxProps total rest (idx + 1) t').map
          (fun r => (errPlaceholder ty :: r.1, r.2))
      | some (Except.ok (v, t')) =>
        (serListItems ser maxProps total rest (idx + 1) t').map
          (fun r => (v :: r.1, r.2))

/-- Embeds `serialization.safe_serialize_object(obj, tracker, max_properties)`,
with structural fuel (sufficiency proved below).  Branch order follows the
source: `None`, primitives, non-serializable, max depth, circular check /
`enter`, then the container branches inside `try ... finally tracker.exit`.
Functions carry an (empty) `__dict__` and so serialize through the
`__dict__` branch; a `pyraising` object raises at its `__dict__` access, so
the `finally` runs `exit` and the exception propagates. -/
def safe_serialize_object (heap : Heap) (maxProps : Nat) :
    Nat → Nat → Tracker → SerResult
  | 0, _, _ => none
  | fuel + 1, objId, t =>
    let obj := heap objId
    match obj with
    | PyObj.pynone => some (Except.ok (SVal.vnone, t))
    | PyObj.pybool b => some (Except.ok (SVal.vbool b, t))
    | PyObj.pyint n => some (Except.ok (SVal.vint n, t))
    | PyObj.pystr s => some (Except.ok (SVal.vstr s, t))
    | PyObj.pybytes s => some (Except.ok (SVal.vbytes s, t))
    | _ =>
      if is_non_serializable obj then
        some (Except.ok (make_type_representation obj (pyRepr obj), t))
      else if t.isMaxDepthReached then
        some (Except.ok (make_type_representation obj (pyRepr obj), t))
      else
        match t.enter objId with
        | (true, t') => some (Except.ok (make_circular_reference_marker false, t'))
        | (false, t1) =>
          match obj with
          | PyObj.pydict entries =>
            (serDictEntries (safe_serialize_object heap maxProps fuel) maxProps
                entries.length entries 0 t1).map
              (fun r => Except.ok (SVal.vdict r.1, r.2.exit objId))
          | PyObj.pylist items =>
            (serListItems (safe_serialize_object heap maxProps fuel) maxProps
                items.length items 0 t1).map
              (fun r => Except.ok (SVal.vlist r.1, r.2.exit objId))
          | PyObj.pytuple items =>
            (serListItems (safe_serialize_object heap maxProps fuel) maxProps
                items.length items 0 t1).map
              (fun r => Except.ok (SVal.vtuple r.1, r.2.exit objId))
          | PyObj.pyset items =>
            (serListItems (safe_serialize_object heap maxProps fuel) maxProps
                items.length items 0 t1).map
              (fun r => Except.ok (SVal.vlist r.1, r.2.exit objId))
          | PyObj.pyobjdict _ attrs =>
            (serDictEntries (safe_serialize_object heap maxProps fuel) maxProps
                attrs.length attrs 0 t1).map
              (fun r => Except.ok (SVal.vdict r.1, r.2.exit objId))
          | PyObj.pyfunc _ =>
            -- functions carry an empty `__dict__`
            some (Except.ok (SVal.vdict [], t1.exit objId))
          | PyObj.pyraising ty =>
            some (Except.error (ty, t1.exit objId))
          | o =>
            -- the `repr` fallback at the end of the function
            some (Except.ok (make_type_representation o (pyRepr o), t1.exit objId))

/-! ## `snapshot_collector.py`

`SnapshotCollectorConfigManager` (a table of configuration getters whose
module is outside the source tree) is embedded as an explicit configuration
record passed to the functions that read it; each field is one getter. -/

/-- The values of the `SnapshotCollectorConfigManager` getters. -/
structure SnapCfg where
  parseDepth : Nat
  maxFrames : Nat
  maxExpandFrames : Nat
  maxSize : Nat
  maxVarLen : Nat
  maxProperties : Nat
  deriving DecidableEq, Repr

/-- Embeds `_trim_string(s, max_len)` — Python strings as character lists
(`len` / `s[:n]` are `List.length` / `List.take`). -/
def _trim_string (s : List Char) (maxLen : Nat) : List Char :=
  if s.length ≤ maxLen then s else s.take (maxLen + 1) ++ "...".toList

/-- A `Value(var_type, value)` snapshot node built by
`collect_variable_value` (`snapshot/value.py` is a plain data holder whose
constructor stores both fields).  The shape of the stored `value` is fused
into the constructor: `None`, a primitive (strings already trimmed), the
`str()` / `__name__` rendering of dates and functions, a dict or list of
nested `Value`s, or — on `collect_frame_locals`' non-serializable path — a
`safe_serialize_object` result. -/
inductive Value where
  | ofNone (varType : String)
  | ofBool (varType : String) (b : Bool)
  | ofInt (varType : String) (n : Int)
  | ofStr (varType : String) (s : List Char)
  | ofBytes (varType : String) (s : List Char)
  | ofPlain (varType : String) (s : String)
  | ofDict (varType : String) (entries : List (String × Value))
  | ofList (varType : String) (items : List Value)
  | ofSafe (varType : String) (v : SVal)
  deriving Repr

/-- Result of one `collect_variable_value` call: out of fuel (`none`; proved
unreachable for sufficient fuel), a propagated exception paired with the
`self.cur_size` already accumulated, or the optional `Value` (the Python
function returns `None` past the budgets) and the new `self.cur_size`. -/
abbrev CollResult := Option (Except (String × Nat) (Option Value × Nat))

/-- The dict / `__dict__` loop of `collect_variable_value`: for each entry,
stop silently when `self.cur_size` has reached `max_size`, recurse, and keep
the child only if it is not `None`, adding `len(repr(name))` (two quote
characters around a string key) to the size.  A child exception propagates —
there is no `try` in `collect_variable_value`. -/
def collDictEntries (coll : Nat → Nat → CollResult) (maxSize : Nat) :
    List (String × Nat) → Nat → Option (Except (String × Nat) (List (String × Value) × Nat))
  | [], curSize => some (Except.ok ([], curSize))
  | (k, cid) :: rest, curSize =>
    if curSize ≥ maxSize then some (Except.ok ([], curSize))
    else
      match coll cid curSize with
      | none => none
      | some (Except.error e) => some (Except.error e)
      | some (Except.ok (none, cs')) =>
        collDictEntries coll maxSize rest cs'
      | some (Except.ok (some v, cs')) =>
        (collDictEntries coll maxSize rest (cs' + (k.length + 2))).map
          (Except.map (fun r => ((k, v) :: r.1, r.2)))

/-- The list/tuple/set loop of `collect_variable_value`: stop silently at the
size budget, recurse, keep non-`None` children; no element count is applied
and no size is added for the element itself. -/
def collListItems (coll : Nat → Nat → CollResult) (maxSize : Nat) :
    List Nat → Nat → Option (Except (String × Nat) (List Value × Nat))
  | [], curSize => some (Except.ok ([], curSize))
  | cid :: rest, curSize =>
    if curSize ≥ maxSize then some (Except.ok ([], curSize))
    else
      match coll cid curSize with
      | none => none
      | some (Except.error e) => some (Except.error e)
      | some (Except.ok (none, cs')) =>
        collListItems coll maxSize rest cs'
      | some (Except.ok (some v, cs')) =>
        (collListItems coll maxSize rest cs').map
          (Except.map (fun r => (v :: r.1, r.2)))

/-- Embeds `SnapshotCollector.collect_variable_value(variable, depth, max_depth)`,
with structural fuel (sufficiency proved below).  `curSize` is
`self.cur_size`.  Branch order follows the source: the depth and size
budgets return `None`; `None` and primitive variables (text trimmed to
`max_var_len`) add their `repr` length; dates add their `str`; dict, vector
and `__dict__` objects recurse at `depth + 1` (the `__dict__` items list is
cut to the first `20 + 1` entries by `itertools.islice`); functions store
their `__name__`; anything else without `__dict__` becomes
`Value(type_name, None)`.  A `pyraising` object raises at the
`hasattr(variable, '__dict__')` probe. -/
def collect_variable_value (cfg : SnapCfg) (heap : Heap) (maxDepth : Nat) :
    Nat → Nat → Nat → Nat → CollResult
  | 0, _, _, _ => none
  | fuel + 1, objId, depth, curSize =>
    if depth ≥ maxDepth then some (Except.ok (none, curSize))
    else if curSize ≥ cfg.maxSize then some (Except.ok (none, curSize))
    else
      match heap objId with
      | PyObj.pynone =>
        some (Except.ok (some (Value.ofNone "NoneType"), curSize + 4))
      | PyObj.pybool b =>
        some (Except.ok (some (Value.ofBool "bool" b),
          curSize + (pyRepr (PyObj.pybool b)).length))
      | PyObj.pyint n =>
        some (Except.ok (some (Value.ofInt "int" n),
          curSize + (pyRepr (PyObj.pyint n)).length))
      | PyObj.pystr s =>
        let r := _trim_string s cfg.maxVarLen
        some (Except.ok (some (Value.ofStr "str" r),
          curSize + (pyRepr (PyObj.pystr r)).length))
      | PyObj.pybytes s =>
        some (Except.ok (some (Value.ofBytes "bytes" s),
          curSize + (pyRepr (PyObj.pybytes s)).length))
      | PyObj.pydate ty s =>
        some (Except.ok (some (Value.ofPlain ty s), curSize + s.length))
      | PyObj.pydict entries =>
        (collDictEntries (fun cid cs =>
            collect_variable_value cfg heap maxDepth fuel cid (depth + 1) cs)
          cfg.maxSize entries curSize).map
          (Except.map (fun r => (some (Value.ofDict "dict" r.1), r.2)))
      | PyObj.pylist items =>
        (collListItems (fun cid cs =>
            collect_variable_value cfg heap maxDepth fuel cid (depth + 1) cs)
          cfg.maxSize items curSize).map
          (Except.map (fun r => (some (Value.ofList "list" r.1), r.2)))
      | PyObj.pytuple items =>
        (collListItems (fun cid cs =>
            collect_variable_value cfg heap maxDepth fuel cid (depth + 1) cs)
          cfg.maxSize items curSize).map
          (Except.map (fun r => (some (Value.ofList "tuple" r.1), r.2)))
      | PyObj.pyset items =>
        (collListItems (fun cid cs =>
            collect_variable_value cfg heap maxDepth fuel cid (depth + 1) cs)
          cfg.maxSize items curSize).map
          (Except.map (fun r => (some (Value.ofList "set" r.1), r.2)))
      | PyObj.pyfunc name =>
        some (Except.ok (some (Value.ofPlain "function" name), curSize + name.length))
      | PyObj.pyobjdict cls attrs =>
        (collDictEntries (fun cid cs =>
            collect_variable_value cfg heap maxDepth fuel cid (depth + 1) cs)
          cfg.maxSize (attrs.take 21) curSize).map
          (Except.map (fun r => (some (Value.ofDict cls r.1), r.2)))
      | PyObj.pyraising excTy =>
        some (Except.error (excTy, curSize))
      | o =>
        some (Except.ok (some (Value.ofNone (typeName o)), curSize))

/-- A `Variable(name, type, value)` node (`snapshot/variable.py` is a plain
data holder). -/
structure Variable where
  name : String
  type : String
  value : Value
  deriving Repr

/-- Python `"byte" in type(value).__name__` — the source writes it as
`type(value).__name__.find("byte") == -1`; it filters both `bytes` and
`bytearray` out of the frame locals. -/
def typeNameHasByte (ty : String) : Bool :=
  decide (List.IsInfix "byte".toList ty.toList)

/-- Embeds `SnapshotCollector.collect_frame_locals`, looping over `frame.f_locals`.
Thread state: `self.cur_size` and `self.tracker`.  Per variable (inside
`try`): non-serializable values go through `safe_serialize_object` (default
`max_properties=100`), everything else through `collect_variable_value` at
depth `0` with budget `get_parse_depth()`; a non-`None` result whose type
name does not contain `"byte"` is appended; once `len(variables)` exceeds
`max_properties` the loop breaks; an exception skips the variable
(`continue`).  The two fuel arguments are chosen sufficient (see the fuel
lemmas), so the `none` fall-throughs are unreachable. -/
def collect_frame_locals_aux (cfg : SnapCfg) (heap : Heap) :
    List (String × Nat) → Nat → Nat → Tracker → List Variable × Nat × Tracker
  | [], _, curSize, t => ([], curSize, t)
  | (name, objId) :: rest, count, curSize, t =>
    let obj := heap objId
    -- the `try` body for this variable: `(raised?, appended value?, state)`
    let step : Bool × Option Variable × Nat × Tracker :=
      if is_non_serializable obj then
        match safe_serialize_object heap 100 (t.max_depth + 1) objId t with
        | some (Except.ok (sv, t')) =>
          (false, some ⟨name, typeName obj, Value.ofSafe (typeName obj) sv⟩, curSize, t')
        | some (Except.error (_, t')) => (true, none, curSize, t')
        | none => (true, none, curSize, t)
      else
        match collect_variable_value cfg heap cfg.parseDepth (cfg.parseDepth + 1)
            objId 0 curSize with
        | some (Except.ok (some v, cs')) =>
          (false, some ⟨name, typeName obj, v⟩, cs', t)
        | some (Except.ok (none, cs')) => (false, none, cs', t)
        | some (Except.error (_, cs')) => (true, none, cs', t)
        | none => (true, none, curSize, t)
    match step with
    | (true, _, cs', t') =>
      -- the `except` handler: skip this variable (`continue`)
      collect_frame_locals_aux cfg heap rest count cs' t'
    | (false, appended, cs', t') =>
      let keep := match appended with
        | some v => if typeNameHasByte (typeName obj) then none else some v
        | none => none
      match keep with
      | some v =>
        if count + 1 > cfg.maxProperties then
          -- `len(variables) > max_properties` after this append: break
          ([v], cs', t')
        else
          let r := collect_frame_locals_aux cfg heap rest (count + 1) cs' t'
          (v :: r.1, r.2)
      | none =>
        -- nothing appended; the break test compares the unchanged length
        if count > cfg.maxProperties then
          ([], cs', t')
        else
          collect_frame_locals_aux cfg heap rest count cs' t'

/-- Embeds `SnapshotCollector.collect_frame_locals(frame)` over the id-resolved
`frame.f_locals` items, from `self.cur_size` and `self.tracker`; returns the
`Variables` list and the updated state. -/
def collect_frame_locals (cfg : SnapCfg) (heap : Heap) (locs : List (String × Nat))
    (curSize : Nat) (t : Tracker) : List Variable × Nat × Tracker :=
  collect_frame_locals_aux cfg heap locs 0 curSize t

/-- One Python stack frame as the collector reads it: `f_lineno`,
`f_code.co_filename`, `f_code.co_name` and the id-resolved `f_locals`.  The
`f_back` chain is the tail of the frame list. -/
structure PyFrame where
  lineno : Nat
  filename : String
  funcName : String
  locs : List (String × Nat)
  deriving Repr

/-- A `Frame(lineno, variables, file_path, method_name)` snapshot node
(`probe/frame.py` is a plain data holder).  `normalize_path` strips a
`sys.path` prefix from the file name; `sys.path` is environment state outside
the program text, so the embedding keeps the path unchanged. -/
structure Frame where
  lineno : Nat
  frameVars : List Variable
  file : String
  methodName : String
  deriving Repr

/-- The `Snapshot(frames, method_name, file)` result (`snapshot/snapshot.py`
is a plain data holder). -/
structure Snapshot where
  frames : List Frame
  methodName : String
  file : String
  deriving Repr

/-- The frame-walking loop of `SnapshotCollector.collect`: up to
`max_frames` frames, the first `max_expand_frames` of them expanded through
`collect_frame_locals` and the rest given empty `Variables`. -/
def collectFrames (cfg : SnapCfg) (heap : Heap) :
    List PyFrame → Nat → Nat → Tracker → List Frame
  | [], _, _, _ => []
  | f :: rest, collected, curSize, t =>
    if collected ≥ cfg.maxFrames then []
    else if collected < cfg.maxExpandFrames then
      let r := collect_frame_locals cfg heap f.locs curSize t
      ⟨f.lineno, r.1, f.filename, f.funcName⟩ ::
        collectFrames cfg heap rest (collected + 1) r.2.1 r.2.2
    else
      ⟨f.lineno, [], f.filename, f.funcName⟩ ::
        collectFrames cfg heap rest (collected + 1) curSize t

/-- Embeds `SnapshotCollector.collect(top_frame)` on a fresh collector:
`self.tracker` is reset to a fresh `CircularReferenceTracker` with
`max_depth = get_parse_depth()` and `self.cur_size` starts at `0` (set in
`__init__`). -/
def collect (cfg : SnapCfg) (heap : Heap) (frames : List PyFrame) : Snapshot :=
  let collected := collectFrames cfg heap frames 0 0 (Tracker.init cfg.parseDepth)
  { frames := collected
    methodName := (frames.head?.map PyFrame.funcName).getD ""
    file := (frames.head?.map PyFrame.filename).getD "" }

/-! ## The per-probe token-bucket rate limiter

Modelled from the spec: the module
`tracepointdebug/probe/ratelimit/rate_limiter.py` (imported by
`tests/test_python_components.py` as
`from tracepointdebug.probe.ratelimit.rate_limiter import RateLimiter`) is
not part of the source tree, so the bucket is taken from §4.3 of the
specification: state `{tokens ≤ capacity = burst, refillRate =
limitPerSecond, lastRefillTimestamp, droppedCount}`; `consume()` lazily
refills `tokens = min(capacity, tokens + elapsed·refillRate)` at call time,
then decrements and returns true if `tokens ≥ 1`, else increments
`droppedCount` and returns false.  Time and tokens are rationals (the spec
calls tokens "real"). -/

/-- The rate-limiter bucket state (spec §3 `RateLimiterState` / §4.3). -/
structure RateLimiter where
  capacity : ℚ
  refillRate : ℚ
  tokens : ℚ
  lastRefill : ℚ
  droppedCount : Nat
  deriving DecidableEq, Repr

/-- Embeds `RateLimiter(limit_per_second, burst)` constructed at time `now`: a full
bucket. -/
def RateLimiter.init (limitPerSecond burst : ℚ) (now : ℚ) : RateLimiter :=
  ⟨burst, limitPerSecond, burst, now, 0⟩

/-- Embeds `consume()` at time `now`: refill, then admit or drop. -/
def RateLimiter.consume (rl : RateLimiter) (now : ℚ) : Bool × RateLimiter :=
  let elapsed := now - rl.lastRefill
  let refilled := min rl.capacity (rl.tokens + elapsed * rl.refillRate)
  if refilled ≥ 1 then
    (true, { rl with tokens := refilled - 1, lastRefill := now })
  else
    (false, { rl with tokens := refilled, lastRefill := now,
                      droppedCount := rl.droppedCount + 1 })

/-- Embeds `get_stats()`: `{tokens, limit, burst, droppedCount}`. -/
def RateLimiter.getStats (rl : RateLimiter) : ℚ × ℚ × ℚ × Nat :=
  (rl.tokens, rl.refillRate, rl.capacity, rl.droppedCount)

/-- A sequence of `consume()` calls at the given timestamps (in seconds):
the list of results and the final bucket state. -/
def consumeSeq (rl : RateLimiter) : List ℚ → List Bool × RateLimiter
  | [] => ([], rl)
  | t :: ts =>
    let r := rl.consume t
    let rest := consumeSeq r.2 ts
    (r.1 :: rest.1, rest.2)

/-! ## Theorems -/

/-- C7: whenever the interpreter is actually free-threaded (built with
`Py_GIL_DISABLED` and the GIL currently disabled), `get_engine` returns the
pytrace engine for every value of the `TRACEPOINTDEBUG_ENGINE` override, and
an override of `"native"` (any casing) additionally emits a warning while
still falling back to pytrace. -/
theorem get_engine_free_threaded_forces_pytrace
    (override : Option String) (pyGilDisabled hasGilCheck gilEnabled : Bool)
    (pyVersion : List Nat)
    (hft : is_actually_free_threaded pyGilDisabled hasGilCheck gilEnabled = true) :
    (get_engine override pyGilDisabled hasGilCheck gilEnabled pyVersion).1
        = EngineChoice.pytrace
    ∧ get_engine (some "native") pyGilDisabled hasGilCheck gilEnabled pyVersion
        = (EngineChoice.pytrace, true)
    ∧ get_engine (some "NATIVE") pyGilDisabled hasGilCheck gilEnabled pyVersion
        = (EngineChoice.pytrace, true) := by
  unfold get_engine
  rw [hft]
  refine ⟨rfl, ?_, ?_⟩ <;> simp <;> decide

/-- Witness for `get_engine_free_threaded_forces_pytrace` at a concrete
free-threaded configuration. -/
theorem get_engine_free_threaded_forces_pytrace_witness :
    (get_engine none true true false [3, 13, 0]).1 = EngineChoice.pytrace
    ∧ get_engine (some "native") true true false [3, 13, 0]
        = (EngineChoice.pytrace, true)
    ∧ get_engine (some "NATIVE") true true false [3, 13, 0]
        = (EngineChoice.pytrace, true) :=
  get_engine_free_threaded_forces_pytrace none true true false [3, 13, 0] (by decide)

/-- C10: at the capture-engine layer, `pytrace.remove_logpoint` on an id with
no registered callback is a silent no-op — it is a total function (the
`_CALLBACKS.pop(lp_id, None)` default means no `KeyError`), it reports no
NotFound outcome, and it leaves the callback table unchanged. -/
theorem pytrace_remove_logpoint_unknown_id_noop {β : Type} (lpId : String)
    (callbacks : List (String × β))
    (h : lpId ∉ callbacks.map Prod.fst) :
    pytrace_remove_logpoint lpId callbacks = callbacks := by
  unfold pytrace_remove_logpoint
  refine List.filter_eq_self.mpr ?_
  intro a ha
  have : a.1 ∈ callbacks.map Prod.fst := List.mem_map.mpr ⟨a, ha, rfl⟩
  simp only [ne_eq, decide_eq_true_eq]
  intro hEq
  exact h (hEq ▸ this)

/-- Witness for `pytrace_remove_logpoint_unknown_id_noop`: removing the
never-registered id `"lp-3"` leaves a two-entry table untouched. -/
theorem pytrace_remove_logpoint_unknown_id_noop_witness :
    pytrace_remove_logpoint "lp-3" [("lp-1", 10), ("lp-2", 20)]
      = [("lp-1", 10), ("lp-2", 20)] :=
  pytrace_remove_logpoint_unknown_id_noop "lp-3" [("lp-1", 10), ("lp-2", 20)] (by decide)

/-- Looking a key up after filtering that key out finds nothing. -/
lemma lookup_filter_ne {β : Type} (l : List (String × β)) (k : String) :
    (l.filter (fun e => e.1 ≠ k)).lookup k = none := by
  induction l with
  | nil => rfl
  | cons hd tl ih =>
    rcases hd with ⟨k1, v1⟩
    by_cases hk : k1 = k
    · simpa [List.filter_cons, hk] using ih
    · have hb : (k == k1) = false := by simp [Ne.symm hk]
      simp [List.filter_cons, hk, List.lookup, hb, ih]
      exact fun a b _ h => Ne.symm h

/-- C5: `remove_point` on an id that is not registered — including an id that
was just removed — answers 404 NotFound and leaves the registry untouched;
a registered id is removed with status 200, and repeating the removal
answers 404 with the state again untouched. -/
theorem remove_point_unknown_not_found (st : ApiState) (pid : String) :
    (st.point_ids.lookup pid = none →
      remove_point st [("id", JVal.jstr pid)] = (⟨404, "not found"⟩, st))
    ∧ ((st.point_ids.lookup pid).isSome →
      (remove_point st [("id", JVal.jstr pid)]).1.status = 200
      ∧ remove_point (remove_point st [("id", JVal.jstr pid)]).2 [("id", JVal.jstr pid)]
          = (⟨404, "not found"⟩, (remove_point st [("id", JVal.jstr pid)]).2)) := by
  constructor
  · intro h
    simp [remove_point, hasField, h]
  · intro h
    have h200 : (remove_point st [("id", JVal.jstr pid)]).1.status = 200 := by
      simp [remove_point, hasField, h]
    refine ⟨h200, ?_⟩
    have hstate : (remove_point st [("id", JVal.jstr pid)]).2
        = ⟨st.point_ids.filter (fun e => e.1 ≠ pid)⟩ := by
      simp [remove_point, hasField, h]
    rw [hstate]
    simp [remove_point, hasField, lookup_filter_ne]

/-- Witness for `remove_point_unknown_not_found`: a one-probe registry, with
the probe first removed and then removed again. -/
theorem remove_point_unknown_not_found_witness :
    (remove_point ⟨[("p1", ⟨"tracepoint", []⟩)]⟩ [("id", JVal.jstr "p1")]).1.status = 200
    ∧ remove_point (remove_point ⟨[("p1", ⟨"tracepoint", []⟩)]⟩ [("id", JVal.jstr "p1")]).2
        [("id", JVal.jstr "p1")]
        = (⟨404, "not found"⟩,
           (remove_point ⟨[("p1", ⟨"tracepoint", []⟩)]⟩ [("id", JVal.jstr "p1")]).2) :=
  (remove_point_unknown_not_found ⟨[("p1", ⟨"tracepoint", []⟩)]⟩ "p1").2 (by decide)

/-- C4 counterexample: a tracepoint request whose `file` is present but the
empty string is accepted (HTTP 201) and the probe is created with
`file = ""`; and a logpoint request with `line = 0` is accepted and created.
The claim — that a request with an empty file or `line < 1` is always
rejected with a 400 and no probe — is therefore false on the code. -/
theorem put_accepts_empty_file_and_line_zero :
    (put_tracepoint ⟨[]⟩ [("file", JVal.jstr ""), ("line", JVal.jint 5)] "p1").1.status = 201
    ∧ (put_tracepoint ⟨[]⟩ [("file", JVal.jstr ""), ("line", JVal.jint 5)] "p1").2.point_ids
        = [("p1", ⟨"tracepoint", [("file", JVal.jstr ""), ("line", JVal.jint 5)]⟩)]
    ∧ (put_logpoint ⟨[]⟩
        [("file", JVal.jstr "app.py"), ("line", JVal.jint 0),
         ("log_expression", JVal.jstr "x")] "p2").1.status = 200
    ∧ (put_logpoint ⟨[]⟩
        [("file", JVal.jstr "app.py"), ("line", JVal.jint 0),
         ("log_expression", JVal.jstr "x")] "p2").2.point_ids
        = [("p2", ⟨"logpoint",
            [("file", JVal.jstr "app.py"), ("line", JVal.jint 0),
             ("log_expression", JVal.jstr "x")]⟩)] :=
  ⟨rfl, rfl, rfl, rfl⟩

/-- C4 amended: `put_tracepoint` creates a probe (HTTP 201) exactly when
`file` and `line` are present and `line` is an int (Python `bool` counts)
with value ≥ 1 — the content of `file`, even the empty string, is never
inspected; a rejected request leaves the registry unchanged.
`put_logpoint` checks only the presence of `file`, `line` and
`log_expression` and never validates the line number; its rejections also
leave the registry unchanged. -/
theorem put_validation_exact (st : ApiState) (data : ReqData) (fid : String) :
    ((put_tracepoint st data fid).1.status = 201 ↔
      (hasField data "file" = true ∧ hasField data "line" = true ∧
       ∃ n, jAsInt ((data.lookup "line").getD JVal.jnull) = some n ∧ 1 ≤ n))
    ∧ ((put_tracepoint st data fid).1.status = 201 →
        (put_tracepoint st data fid).2.point_ids
          = (fid, ⟨"tracepoint", data⟩) :: st.point_ids)
    ∧ ((put_tracepoint st data fid).1.status ≠ 201 →
        (put_tracepoint st data fid).2 = st)
    ∧ ((put_logpoint st data fid).1.status = 200 ↔
      (hasField data "file" = true ∧ hasField data "line" = true ∧
       hasField data "log_expression" = true))
    ∧ ((put_logpoint st data fid).1.status = 200 →
        (put_logpoint st data fid).2.point_ids
          = (fid, ⟨"logpoint", data⟩) :: st.point_ids)
    ∧ ((put_logpoint st data fid).1.status ≠ 200 →
        (put_logpoint st data fid).2 = st) := by
  unfold put_tracepoint put_logpoint
  by_cases hf : hasField data "file" <;>
    by_cases hl : hasField data "line" <;>
      by_cases he : hasField data "log_expression" <;>
        simp [hf, hl, he]
  all_goals
    rcases hn : jAsInt ((data.lookup "line").getD JVal.jnull) with _ | n
  all_goals simp [hn]
  all_goals
    by_cases h1 : n < 1 <;> simp [h1] <;> try omega

/-- Witness for `put_validation_exact`: a valid request creates the probe. -/
theorem put_validation_exact_witness :
    (put_tracepoint ⟨[]⟩ [("file", JVal.jstr "a.py"), ("line", JVal.jint 3)] "p9").2.point_ids
      = [("p9", ⟨"tracepoint", [("file", JVal.jstr "a.py"), ("line", JVal.jint 3)]⟩)] :=
  (put_validation_exact ⟨[]⟩ [("file", JVal.jstr "a.py"), ("line", JVal.jint 3)] "p9").2.1
    (by decide)

/-- C6: for a bucket with `limit_per_second=5, burst=5`, the first five
immediate `consume()` calls succeed and the sixth fails (raising the dropped
count to 1 with the bucket empty); any further `consume()` at least 200 ms
(`1/5` s) later succeeds again.  In the model each `consume()` is, by
construction, lazy-refill `tokens = min(capacity, tokens + elapsed·rate)`
followed by decrement-if-`tokens ≥ 1`-else-count-drop, as the claim
states. -/
theorem rate_limiter_burst_and_refill :
    consumeSeq (RateLimiter.init 5 5 0) [0, 0, 0, 0, 0, 0]
      = ([true, true, true, true, true, false], ⟨5, 5, 0, 0, 1⟩)
    ∧ ∀ t : ℚ, 1/5 ≤ t →
        ((consumeSeq (RateLimiter.init 5 5 0) [0, 0, 0, 0, 0, 0]).2.consume t).1 = true := by
  have hseq : consumeSeq (RateLimiter.init 5 5 0) [0, 0, 0, 0, 0, 0]
      = ([true, true, true, true, true, false], ⟨5, 5, 0, 0, 1⟩) := by
    norm_num [consumeSeq, RateLimiter.consume, RateLimiter.init, min_def]
  refine ⟨hseq, ?_⟩
  intro t ht
  rw [hseq]
  have h : (1 : ℚ) ≤ t * 5 := by linarith
  simp [RateLimiter.consume, h]

/-- Witness for `rate_limiter_burst_and_refill`: the refill succeeds at
exactly `t = 1/5` s. -/
theorem rate_limiter_burst_and_refill_witness :
    ((consumeSeq (RateLimiter.init 5 5 0) [0, 0, 0, 0, 0, 0]).2.consume (1/5)).1 = true :=
  rate_limiter_burst_and_refill.2 (1/5) (by norm_num)

/-- C8 counterexample: with `maxVarLen = 2`, collecting the string `"abcd"`
stores `"abc..."` — the kept prefix `"abc"` has length `maxVarLen + 1 = 3`,
not at most `maxVarLen`, so the stored value is not a prefix of length at
most `maxVarLen` followed by the ellipsis marker (any such value would have
at most `2 + 3 = 5` characters, and the unique prefix that the `"..."`
suffix leaves is `"abc"` of length `3 > 2`). -/
theorem trim_string_off_by_one_cex :
    collect_variable_value ⟨3, 10, 10, 1000, 2, 10⟩
        (fun _ => PyObj.pystr "abcd".toList) 3 1 0 0 0
      = some (Except.ok (some (Value.ofStr "str" "abc...".toList), 8))
    ∧ "abc...".toList.length = 2 + 3 + 1
    ∧ "abc...".toList.take 3 = "abc".toList
    ∧ ¬ "abc".toList.length ≤ 2 :=
  ⟨rfl, rfl, rfl, by decide⟩

/-- C8 amended: a string of length at most `maxVarLen` is stored unchanged;
a longer string is stored as its prefix of length exactly `maxVarLen + 1`
(one more character than `maxVarLen`) followed by the `"..."` ellipsis
marker, and that is exactly what `collect_variable_value` stores for a text
variable inside the budgets. -/
theorem trim_string_exact (s : List Char) (maxLen : Nat) :
    (s.length ≤ maxLen → _trim_string s maxLen = s)
    ∧ (maxLen < s.length →
        _trim_string s maxLen = s.take (maxLen + 1) ++ "...".toList
        ∧ (_trim_string s maxLen).length = (maxLen + 1) + 3
        ∧ s.take (maxLen + 1) <+: s)
    ∧ (∀ (cfg : SnapCfg) (heap : Heap) (maxDepth objId depth curSize fuel : Nat),
        heap objId = PyObj.pystr s → depth < maxDepth → curSize < cfg.maxSize →
        collect_variable_value cfg heap maxDepth (fuel + 1) objId depth curSize
          = some (Except.ok (some (Value.ofStr "str" (_trim_string s cfg.maxVarLen)),
              curSize + ((_trim_string s cfg.maxVarLen).length + 2)))) := by
  refine ⟨?_, ?_, ?_⟩
  · intro h
    simp [_trim_string, h]
  · intro h
    have hnot : ¬ s.length ≤ maxLen := by omega
    refine ⟨by simp [_trim_string, hnot], ?_, List.take_prefix _ _⟩
    simp only [_trim_string, hnot, if_false, List.length_append, List.length_take]
    have : min (maxLen + 1) s.length = maxLen + 1 := by omega
    simp [this]
  · intro cfg heap maxDepth objId depth curSize fuel hheap hdepth hsize
    have h1 : ¬ depth ≥ maxDepth := by omega
    have h2 : ¬ curSize ≥ cfg.maxSize := by omega
    simp only [collect_variable_value, h1, if_false, h2, hheap]
    simp [pyRepr]

/-- Witness for `trim_string_exact`: collecting `"hello"` with
`maxVarLen = 3` stores `"hell..."`. -/
theorem trim_string_exact_witness :
    collect_variable_value ⟨4, 10, 10, 500, 3, 10⟩
        (fun _ => PyObj.pystr "hello".toList) 4 3 0 0 0
      = some (Except.ok (some (Value.ofStr "str" (_trim_string "hello".toList 3)),
          0 + ((_trim_string "hello".toList 3).length + 2))) :=
  (trim_string_exact "hello".toList 3).2.2 ⟨4, 10, 10, 500, 3, 10⟩
    (fun _ => PyObj.pystr "hello".toList) 4 0 0 0 2 rfl (by decide) (by decide)


/-- All entries of the dict loop succeed when every child call succeeds. -/
lemma collDictEntries_isSome (coll : Nat → Nat → CollResult) (maxSize : Nat)
    (h : ∀ cid cs, (coll cid cs).isSome) :
    ∀ (entries : List (String × Nat)) (curSize : Nat),
      (collDictEntries coll maxSize entries curSize).isSome := by
  intro entries
  induction entries with
  | nil => intro curSize; simp [collDictEntries]
  | cons hd tl ih =>
    intro curSize
    rcases hd with ⟨k, cid⟩
    by_cases hcs : curSize ≥ maxSize
    · simp [collDictEntries, hcs]
    · rcases hsome : coll cid curSize with _ | r
      · exact absurd (h cid curSize) (by simp [hsome])
      · rcases r with e | ⟨v, cs'⟩
        · simp [collDictEntries, hcs, hsome]
        · rcases v with _ | v
          · simpa [collDictEntries, hcs, hsome] using ih cs'
          · have := ih (cs' + (k.length + 2))
            rcases hrec : collDictEntries coll maxSize tl (cs' + (k.length + 2)) with _ | p
            · exact absurd this (by simp [hrec])
            · simp [collDictEntries, hcs, hsome, hrec]


/-- All items of the vector loop succeed when every child call succeeds. -/
lemma collListItems_isSome (coll : Nat → Nat → CollResult) (maxSize : Nat)
    (h : ∀ cid cs, (coll cid cs).isSome) :
    ∀ (items : List Nat) (curSize : Nat),
      (collListItems coll maxSize items curSize).isSome := by
  intro items
  induction items with
  | nil => intro curSize; simp [collListItems]
  | cons cid tl ih =>
    intro curSize
    by_cases hcs : curSize ≥ maxSize
    · simp [collListItems, hcs]
    · rcases hsome : coll cid curSize with _ | r
      · exact absurd (h cid curSize) (by simp [hsome])
      · rcases r with e | ⟨v, cs'⟩
        · simp [collListItems, hcs, hsome]
        · rcases v with _ | v
          · simpa [collListItems, hcs, hsome] using ih cs'
          · have := ih cs'
            rcases hrec : collListItems coll maxSize tl cs' with _ | p
            · exact absurd this (by simp [hrec])
            · simp [collListItems, hcs, hsome, hrec]

/-- Fuel sufficiency for `collect_variable_value`: any fuel exceeding the
remaining depth budget `max_depth - depth` makes the call return (the Python
recursion terminates because the depth strictly increases toward
`max_depth`). -/
lemma collect_variable_value_total (cfg : SnapCfg) (heap : Heap) (maxDepth : Nat) :
    ∀ (fuel objId depth curSize : Nat), maxDepth - depth < fuel →
      (collect_variable_value cfg heap maxDepth fuel objId depth curSize).isSome := by
  intro fuel
  induction fuel with
  | zero => intro objId depth curSize h; omega
  | succ fuel ih =>
    intro objId depth curSize h
    by_cases h1 : depth ≥ maxDepth
    · simp [collect_variable_value, h1]
    · by_cases h2 : curSize ≥ cfg.maxSize
      · simp [collect_variable_value, h1, h2]
      · have hchild : ∀ cid cs,
            (collect_variable_value cfg heap maxDepth fuel cid (depth + 1) cs).isSome := by
          intro cid cs
          exact ih cid (depth + 1) cs (by omega)
        rcases hobj : heap objId with _ | b | n | s | s | ⟨ty, ds⟩ | entries | items | items
            | items | name | ⟨cls, attrs⟩ | ⟨ty, rep⟩ | ⟨ty, rep⟩ | excTy <;>
          simp only [collect_variable_value, h1, if_false, h2, hobj]
        · simp
        · simp
        · simp
        · simp
        · simp
        · simp
        · have := collDictEntries_isSome _ cfg.maxSize hchild entries curSize
          rcases hr : collDictEntries (fun cid cs =>
              collect_variable_value cfg heap maxDepth fuel cid (depth + 1) cs)
              cfg.maxSize entries curSize with _ | p
          · exact absurd this (by simp [hr])
          · simp [hr]
        · have := collListItems_isSome _ cfg.maxSize hchild items curSize
          rcases hr : collListItems (fun cid cs =>
              collect_variable_value cfg heap maxDepth fuel cid (depth + 1) cs)
              cfg.maxSize items curSize with _ | p
          · exact absurd this (by simp [hr])
          · simp [hr]
        · have := collListItems_isSome _ cfg.maxSize hchild items curSize
          rcases hr : collListItems (fun cid cs =>
              collect_variable_value cfg heap maxDepth fuel cid (depth + 1) cs)
              cfg.maxSize items curSize with _ | p
          · exact absurd this (by simp [hr])
          · simp [hr]
        · have := collListItems_isSome _ cfg.maxSize hchild items curSize
          rcases hr : collListItems (fun cid cs =>
              collect_variable_value cfg heap maxDepth fuel cid (depth + 1) cs)
              cfg.maxSize items curSize with _ | p
          · exact absurd this (by simp [hr])
          · simp [hr]
        · simp
        · have := collDictEntries_isSome _ cfg.maxSize hchild (attrs.take 21) curSize
          rcases hr : collDictEntries (fun cid cs =>
              collect_variable_value cfg heap maxDepth fuel cid (depth + 1) cs)
              cfg.maxSize (attrs.take 21) curSize with _ | p
          · exact absurd this (by simp [hr])
          · simp [hr]
        · simp
        · simp
        · simp


/-- The tracker carried by a serialization outcome (both the exception and
the normal path return the tracker as the `finally` blocks left it). -/
def trackerOfR : Except (String × Tracker) (SVal × Tracker) → Tracker
  | Except.error (_, t) => t
  | Except.ok (_, t) => t

/-- Entering and then exiting an object restores the tracker exactly. -/
lemma Tracker.exit_enter (t : Tracker) (objId : Nat) :
    Tracker.exit ⟨t.max_depth, objId :: t.visited, t.depth + 1⟩ objId = t := by
  cases t
  simp [Tracker.exit]

/-- The list loop threads the tracker through children that each restore it,
so a successful loop returns the tracker it started from. -/
lemma serListItems_tracker_eq (ser : Nat → Tracker → SerResult) (mp total : Nat)
    (hP : ∀ cid t r, ser cid t = some r → trackerOfR r = t) :
    ∀ (items : List Nat) (idx : Nat) (t : Tracker) (out : List SVal) (t2 : Tracker),
      serListItems ser mp total items idx t = some (out, t2) → t2 = t := by
  intro items
  induction items with
  | nil =>
    intro idx t out t2 h
    simp [serListItems] at h
    exact h.2.symm
  | cons cid rest ih =>
    intro idx t out t2 h
    by_cases hidx : idx ≥ mp
    · simp [serListItems, hidx] at h
      exact h.2.symm
    · rcases hser : ser cid t with _ | r
      · simp [serListItems, hidx, hser] at h
      · rcases r with ⟨ty, t1⟩ | ⟨v, t1⟩ <;>
          [have hr : t1 = t := hP cid t _ hser;
           have hr : t1 = t := hP cid t _ hser] <;>
          simp only [serListItems, hidx, if_false, hser, Option.map_eq_some'] at h <;>
          obtain ⟨⟨out1, t3⟩, hinner, hf⟩ := h <;>
          have h2 : t3 = t2 := congrArg Prod.snd hf <;>
          rw [← h2, ih (idx + 1) t1 out1 t3 hinner, hr]


/-- Dict-loop analogue of `serListItems_tracker_eq`. -/
lemma serDictEntries_tracker_eq (ser : Nat → Tracker → SerResult) (mp total : Nat)
    (hP : ∀ cid t r, ser cid t = some r → trackerOfR r = t) :
    ∀ (entries : List (String × Nat)) (count : Nat) (t : Tracker)
      (out : List (String × SVal)) (t2 : Tracker),
      serDictEntries ser mp total entries count t = some (out, t2) → t2 = t := by
  intro entries
  induction entries with
  | nil =>
    intro count t out t2 h
    simp [serDictEntries] at h
    exact h.2.symm
  | cons hd rest ih =>
    intro count t out t2 h
    rcases hd with ⟨k, cid⟩
    by_cases hc : count ≥ mp
    · simp [serDictEntries, hc] at h
      exact h.2.symm
    · rcases hser : ser cid t with _ | r
      · simp [serDictEntries, hc, hser] at h
      · rcases r with ⟨ty, t1⟩ | ⟨v, t1⟩ <;>
          have hr : t1 = t := hP cid t _ hser <;>
          simp only [serDictEntries, hc, if_false, hser, Option.map_eq_some'] at h <;>
          obtain ⟨⟨out1, t3⟩, hinner, hf⟩ := h <;>
          have h2 : t3 = t2 := congrArg Prod.snd hf
        · rw [← h2, ih count t1 out1 t3 hinner, hr]
        · rw [← h2, ih (count + 1) t1 out1 t3 hinner, hr]

/-- With every child call succeeding and restoring the tracker, the list
loop succeeds. -/
lemma serListItems_some (ser : Nat → Tracker → SerResult) (mp total : Nat)
    (hP : ∀ cid t r, ser cid t = some r → trackerOfR r = t)
    (t : Tracker) (hQ : ∀ cid, (ser cid t).isSome) :
    ∀ (items : List Nat) (idx : Nat),
      (serListItems ser mp total items idx t).isSome := by
  intro items
  induction items with
  | nil => intro idx; simp [serListItems]
  | cons cid rest ih =>
    intro idx
    by_cases hidx : idx ≥ mp
    · simp [serListItems, hidx]
    · rcases hser : ser cid t with _ | r
      · exact absurd (hQ cid) (by simp [hser])
      · rcases r with ⟨ty, t1⟩ | ⟨v, t1⟩ <;>
          have hr : t1 = t := hP cid t _ hser <;>
          subst hr <;>
          have := ih (idx + 1)
        all_goals
          rcases hrec : serListItems ser mp total rest (idx + 1) t1 with _ | p
          · exact absurd this (by simp [hrec])
          · simp [serListItems, hidx, hser, hrec]

/-- With every child call succeeding and restoring the tracker, the dict
loop succeeds. -/
lemma serDictEntries_some (ser : Nat → Tracker → SerResult) (mp total : Nat)
    (hP : ∀ cid t r, ser cid t = some r → trackerOfR r = t)
    (t : Tracker) (hQ : ∀ cid, (ser cid t).isSome) :
    ∀ (entries : List (String × Nat)) (count : Nat),
      (serDictEntries ser mp total entries count t).isSome := by
  intro entries
  induction entries with
  | nil => intro count; simp [serDictEntries]
  | cons hd rest ih =>
    intro count
    rcases hd with ⟨k, cid⟩
    by_cases hc : count ≥ mp
    · simp [serDictEntries, hc]
    · rcases hser : ser cid t with _ | r
      · exact absurd (hQ cid) (by simp [hser])
      · rcases r with ⟨ty, t1⟩ | ⟨v, t1⟩ <;>
          have hr : t1 = t := hP cid t _ hser <;>
          subst hr
        · have := ih count
          rcases hrec : serDictEntries ser mp total rest count t1 with _ | p
          · exact absurd this (by simp [hrec])
          · simp [serDictEntries, hc, hser, hrec]
        · have := ih (count + 1)
          rcases hrec : serDictEntries ser mp total rest (count + 1) t1 with _ | p
          · exact absurd this (by simp [hrec])
          · simp [serDictEntries, hc, hser, hrec]




/-- Lemma: `safe_serialize_object` restores its tracker on every completed call
(normal or exceptional, because `tracker.exit` runs in `finally`), and any
fuel exceeding the remaining depth budget `max_depth - depth` makes the call
return — the embedded recursion terminates because each nested object both
deepens the tracker toward `max_depth` and is held in the scoped identity
set for the span of its subtree. -/
lemma safe_serialize_object_props (heap : Heap) (maxProps : Nat) :
    ∀ fuel : Nat,
      (∀ objId t r, safe_serialize_object heap maxProps fuel objId t = some r →
        trackerOfR r = t)
      ∧ (∀ objId t, t.max_depth - t.depth < fuel →
        (safe_serialize_object heap maxProps fuel objId t).isSome) := by
  intro fuel
  induction fuel with
  | zero =>
    constructor
    · intro objId t r h
      simp [safe_serialize_object] at h
    · intro objId t h
      omega
  | succ fuel ih =>
    obtain ⟨ihP, ihQ⟩ := ih
    constructor
    · intro objId t r h
      rcases hobj : heap objId with _ | b | n | s | s | ⟨ty, ds⟩ | entries | items | items
          | items | name | ⟨cls, attrs⟩ | ⟨ty, rep⟩ | ⟨ty, rep⟩ | excTy
      · simp only [safe_serialize_object, hobj, Option.some.injEq] at h
        rw [← h]; rfl
      · simp only [safe_serialize_object, hobj, Option.some.injEq] at h
        rw [← h]; rfl
      · simp only [safe_serialize_object, hobj, Option.some.injEq] at h
        rw [← h]; rfl
      · simp only [safe_serialize_object, hobj, Option.some.injEq] at h
        rw [← h]; rfl
      · simp only [safe_serialize_object, hobj, Option.some.injEq] at h
        rw [← h]; rfl
      · simp only [safe_serialize_object, hobj, is_non_serializable, Bool.false_eq_true,
          if_false] at h
        by_cases hd : t.isMaxDepthReached
        · simp only [hd, if_true, Option.some.injEq] at h
          rw [← h]; rfl
        · simp only [hd, if_false, Bool.false_eq_true] at h
          by_cases hv : objId ∈ t.visited
          · simp only [Tracker.enter, hv, if_true, Option.some.injEq] at h
            rw [← h]; rfl
          · simp only [Tracker.enter, hv, if_false, Option.some.injEq] at h
            rw [← h]
            simp only [trackerOfR]
            exact Tracker.exit_enter t objId
      · simp only [safe_serialize_object, hobj, is_non_serializable, Bool.false_eq_true,
          if_false] at h
        by_cases hd : t.isMaxDepthReached
        · simp only [hd, if_true, Option.some.injEq] at h
          rw [← h]; rfl
        · simp only [hd, if_false, Bool.false_eq_true] at h
          by_cases hv : objId ∈ t.visited
          · simp only [Tracker.enter, hv, if_true, Option.some.injEq] at h
            rw [← h]; rfl
          · simp only [Tracker.enter, hv, if_false, Option.map_eq_some'] at h
            obtain ⟨⟨out1, t3⟩, hinner, hf⟩ := h
            have h3 : t3 = ⟨t.max_depth, objId :: t.visited, t.depth + 1⟩ :=
              serDictEntries_tracker_eq _ _ _ ihP entries 0 _ out1 t3 hinner
            rw [← hf]
            simp only [trackerOfR, h3]
            exact Tracker.exit_enter t objId
      · simp only [safe_serialize_object, hobj, is_non_serializable, Bool.false_eq_true,
          if_false] at h
        by_cases hd : t.isMaxDepthReached
        · simp only [hd, if_true, Option.some.injEq] at h
          rw [← h]; rfl
        · simp only [hd, if_false, Bool.false_eq_true] at h
          by_cases hv : objId ∈ t.visited
          · simp only [Tracker.enter, hv, if_true, Option.some.injEq] at h
            rw [← h]; rfl
          · simp only [Tracker.enter, hv, if_false, Option.map_eq_some'] at h
            obtain ⟨⟨out1, t3⟩, hinner, hf⟩ := h
            have h3 : t3 = ⟨t.max_depth, objId :: t.visited, t.depth + 1⟩ :=
              serListItems_tracker_eq _ _ _ ihP items 0 _ out1 t3 hinner
            rw [← hf]
            simp only [trackerOfR, h3]
            exact Tracker.exit_enter t objId
      · simp only [safe_serialize_object, hobj, is_non_serializable, Bool.false_eq_true,
          if_false] at h
        by_cases hd : t.isMaxDepthReached
        · simp only [hd, if_true, Option.some.injEq] at h
          rw [← h]; rfl
        · simp only [hd, if_false, Bool.false_eq_true] at h
          by_cases hv : objId ∈ t.visited
          · simp only [Tracker.enter, hv, if_true, Option.some.injEq] at h
            rw [← h]; rfl
          · simp only [Tracker.enter, hv, if_false, Option.map_eq_some'] at h
            obtain ⟨⟨out1, t3⟩, hinner, hf⟩ := h
            have h3 : t3 = ⟨t.max_depth, objId :: t.visited, t.depth + 1⟩ :=
              serListItems_tracker_eq _ _ _ ihP items 0 _ out1 t3 hinner
            rw [← hf]
            simp only [trackerOfR, h3]
            exact Tracker.exit_enter t objId
      · simp only [safe_serialize_object, hobj, is_non_serializable, Bool.false_eq_true,
          if_false] at h
        by_cases hd : t.isMaxDepthReached
        · simp only [hd, if_true, Option.some.injEq] at h
          rw [← h]; rfl
        · simp only [hd, if_false, Bool.false_eq_true] at h
          by_cases hv : objId ∈ t.visited
          · simp only [Tracker.enter, hv, if_true, Option.some.injEq] at h
            rw [← h]; rfl
          · simp only [Tracker.enter, hv, if_false, Option.map_eq_some'] at h
            obtain ⟨⟨out1, t3⟩, hinner, hf⟩ := h
            have h3 : t3 = ⟨t.max_depth, objId :: t.visited, t.depth + 1⟩ :=
              serListItems_tracker_eq _ _ _ ihP items 0 _ out1 t3 hinner
            rw [← hf]
            simp only [trackerOfR, h3]
            exact Tracker.exit_enter t objId
      · simp only [safe_serialize_object, hobj, is_non_serializable, Bool.false_eq_true,
          if_false] at h
        by_cases hd : t.isMaxDepthReached
        · simp only [hd, if_true, Option.some.injEq] at h
          rw [← h]; rfl
        · simp only [hd, if_false, Bool.false_eq_true] at h
          by_cases hv : objId ∈ t.visited
          · simp only [Tracker.enter, hv, if_true, Option.some.injEq] at h
            rw [← h]; rfl
          · simp only [Tracker.enter, hv, if_false, Option.some.injEq] at h
            rw [← h]
            simp only [trackerOfR]
            exact Tracker.exit_enter t objId
      · simp only [safe_serialize_object, hobj, is_non_serializable, Bool.false_eq_true,
          if_false] at h
        by_cases hd : t.isMaxDepthReached
        · simp only [hd, if_true, Option.some.injEq] at h
          rw [← h]; rfl
        · simp only [hd, if_false, Bool.false_eq_true] at h
          by_cases hv : objId ∈ t.visited
          · simp only [Tracker.enter, hv, if_true, Option.some.injEq] at h
            rw [← h]; rfl
          · simp only [Tracker.enter, hv, if_false, Option.map_eq_some'] at h
            obtain ⟨⟨out1, t3⟩, hinner, hf⟩ := h
            have h3 : t3 = ⟨t.max_depth, objId :: t.visited, t.depth + 1⟩ :=
              serDictEntries_tracker_eq _ _ _ ihP attrs 0 _ out1 t3 hinner
            rw [← hf]
            simp only [trackerOfR, h3]
            exact Tracker.exit_enter t objId
      · simp only [safe_serialize_object, hobj, is_non_serializable, Bool.false_eq_true,
          if_false] at h
        by_cases hd : t.isMaxDepthReached
        · simp only [hd, if_true, Option.some.injEq] at h
          rw [← h]; rfl
        · simp only [hd, if_false, Bool.false_eq_true] at h
          by_cases hv : objId ∈ t.visited
          · simp only [Tracker.enter, hv, if_true, Option.some.injEq] at h
            rw [← h]; rfl
          · simp only [Tracker.enter, hv, if_false, Option.some.injEq] at h
            rw [← h]
            simp only [trackerOfR]
            exact Tracker.exit_enter t objId
      · simp only [safe_serialize_object, hobj, is_non_serializable, if_true,
          Option.some.injEq] at h
        rw [← h]; rfl
      · simp only [safe_serialize_object, hobj, is_non_serializable, Bool.false_eq_true,
          if_false] at h
        by_cases hd : t.isMaxDepthReached
        · simp only [hd, if_true, Option.some.injEq] at h
          rw [← h]; rfl
        · simp only [hd, if_false, Bool.false_eq_true] at h
          by_cases hv : objId ∈ t.visited
          · simp only [Tracker.enter, hv, if_true, Option.some.injEq] at h
            rw [← h]; rfl
          · simp only [Tracker.enter, hv, if_false, Option.some.injEq] at h
            rw [← h]
            simp only [trackerOfR]
            exact Tracker.exit_enter t objId
    · intro objId t hfuel
      rcases hobj : heap objId with _ | b | n | s | s | ⟨ty, ds⟩ | entries | items | items
          | items | name | ⟨cls, attrs⟩ | ⟨ty, rep⟩ | ⟨ty, rep⟩ | excTy
      · simp [safe_serialize_object, hobj]
      · simp [safe_serialize_object, hobj]
      · simp [safe_serialize_object, hobj]
      · simp [safe_serialize_object, hobj]
      · simp [safe_serialize_object, hobj]
      · by_cases hd : t.isMaxDepthReached
        · simp [safe_serialize_object, hobj, is_non_serializable, hd]
        · by_cases hv : objId ∈ t.visited <;>
            simp [safe_serialize_object, hobj, is_non_serializable, hd, Tracker.enter, hv]
      · by_cases hd : t.isMaxDepthReached
        · simp [safe_serialize_object, hobj, is_non_serializable, hd]
        · by_cases hv : objId ∈ t.visited
          · simp [safe_serialize_object, hobj, is_non_serializable, hd, Tracker.enter, hv]
          · have hdepth : t.depth < t.max_depth := by
              simpa [Tracker.isMaxDepthReached] using hd
            have hQ1 : ∀ cid, (safe_serialize_object heap maxProps fuel cid
                ⟨t.max_depth, objId :: t.visited, t.depth + 1⟩).isSome :=
              fun cid => ihQ cid ⟨t.max_depth, objId :: t.visited, t.depth + 1⟩
                (show t.max_depth - (t.depth + 1) < fuel by omega)
            have hsome := serDictEntries_some _ maxProps entries.length ihP _ hQ1 entries 0
            rcases hrec : serDictEntries (safe_serialize_object heap maxProps fuel) maxProps
                entries.length entries 0 ⟨t.max_depth, objId :: t.visited, t.depth + 1⟩ with _ | p
            · exact absurd hsome (by simp [hrec])
            · simp [safe_serialize_object, hobj, is_non_serializable, hd, Tracker.enter, hv, hrec]
      · by_cases hd : t.isMaxDepthReached
        · simp [safe_serialize_object, hobj, is_non_serializable, hd]
        · by_cases hv : objId ∈ t.visited
          · simp [safe_serialize_object, hobj, is_non_serializable, hd, Tracker.enter, hv]
          · have hdepth : t.depth < t.max_depth := by
              simpa [Tracker.isMaxDepthReached] using hd
            have hQ1 : ∀ cid, (safe_serialize_object heap maxProps fuel cid
                ⟨t.max_depth, objId :: t.visited, t.depth + 1⟩).isSome :=
              fun cid => ihQ cid ⟨t.max_depth, objId :: t.visited, t.depth + 1⟩
                (show t.max_depth - (t.depth + 1) < fuel by omega)
            have hsome := serListItems_some _ maxProps items.length ihP _ hQ1 items 0
            rcases hrec : serListItems (safe_serialize_object heap maxProps fuel) maxProps
                items.length items 0 ⟨t.max_depth, objId :: t.visited, t.depth + 1⟩ with _ | p
            · exact absurd hsome (by simp [hrec])
            · simp [safe_serialize_object, hobj, is_non_serializable, hd, Tracker.enter, hv, hrec]
      · by_cases hd : t.isMaxDepthReached
        · simp [safe_serialize_object, hobj, is_non_serializable, hd]
        · by_cases hv : objId ∈ t.visited
          · simp [safe_serialize_object, hobj, is_non_serializable, hd, Tracker.enter, hv]
          · have hdepth : t.depth < t.max_depth := by
              simpa [Tracker.isMaxDepthReached] using hd
            have hQ1 : ∀ cid, (safe_serialize_object heap maxProps fuel cid
                ⟨t.max_depth, objId :: t.visited, t.depth + 1⟩).isSome :=
              fun cid => ihQ cid ⟨t.max_depth, objId :: t.visited, t.depth + 1⟩
                (show t.max_depth - (t.depth + 1) < fuel by omega)
            have hsome := serListItems_some _ maxProps items.length ihP _ hQ1 items 0
            rcases hrec : serListItems (safe_serialize_object heap maxProps fuel) maxProps
                items.length items 0 ⟨t.max_depth, objId :: t.visited, t.depth + 1⟩ with _ | p
            · exact absurd hsome (by simp [hrec])
            · simp [safe_serialize_object, hobj, is_non_serializable, hd, Tracker.enter, hv, hrec]
      · by_cases hd : t.isMaxDepthReached
        · simp [safe_serialize_object, hobj, is_non_serializable, hd]
        · by_cases hv : objId ∈ t.visited
          · simp [safe_serialize_object, hobj, is_non_serializable, hd, Tracker.enter, hv]
          · have hdepth : t.depth < t.max_depth := by
              simpa [Tracker.isMaxDepthReached] using hd
            have hQ1 : ∀ cid, (safe_serialize_object heap maxProps fuel cid
                ⟨t.max_depth, objId :: t.visited, t.depth + 1⟩).isSome :=
              fun cid => ihQ cid ⟨t.max_depth, objId :: t.visited, t.depth + 1⟩
                (show t.max_depth - (t.depth + 1) < fuel by omega)
            have hsome := serListItems_some _ maxProps items.length ihP _ hQ1 items 0
            rcases hrec : serListItems (safe_serialize_object heap maxProps fuel) maxProps
                items.length items 0 ⟨t.max_depth, objId :: t.visited, t.depth + 1⟩ with _ | p
            · exact absurd hsome (by simp [hrec])
            · simp [safe_serialize_object, hobj, is_non_serializable, hd, Tracker.enter, hv, hrec]
      · by_cases hd : t.isMaxDepthReached
        · simp [safe_serialize_object, hobj, is_non_serializable, hd]
        · by_cases hv : objId ∈ t.visited <;>
            simp [safe_serialize_object, hobj, is_non_serializable, hd, Tracker.enter, hv]
      · by_cases hd : t.isMaxDepthReached
        · simp [safe_serialize_object, hobj, is_non_serializable, hd]
        · by_cases hv : objId ∈ t.visited
          · simp [safe_serialize_object, hobj, is_non_serializable, hd, Tracker.enter, hv]
          · have hdepth : t.depth < t.max_depth := by
              simpa [Tracker.isMaxDepthReached] using hd
            have hQ1 : ∀ cid, (safe_serialize_object heap maxProps fuel cid
                ⟨t.max_depth, objId :: t.visited, t.depth + 1⟩).isSome :=
              fun cid => ihQ cid ⟨t.max_depth, objId :: t.visited, t.depth + 1⟩
                (show t.max_depth - (t.depth + 1) < fuel by omega)
            have hsome := serDictEntries_some _ maxProps attrs.length ihP _ hQ1 attrs 0
            rcases hrec : serDictEntries (safe_serialize_object heap maxProps fuel) maxProps
                attrs.length attrs 0 ⟨t.max_depth, objId :: t.visited, t.depth + 1⟩ with _ | p
            · exact absurd hsome (by simp [hrec])
            · simp [safe_serialize_object, hobj, is_non_serializable, hd, Tracker.enter, hv, hrec]
      · by_cases hd : t.isMaxDepthReached
        · simp [safe_serialize_object, hobj, is_non_serializable, hd]
        · by_cases hv : objId ∈ t.visited <;>
            simp [safe_serialize_object, hobj, is_non_serializable, hd, Tracker.enter, hv]
      · simp [safe_serialize_object, hobj, is_non_serializable]
      · by_cases hd : t.isMaxDepthReached
        · simp [safe_serialize_object, hobj, is_non_serializable, hd]
        · by_cases hv : objId ∈ t.visited <;>
            simp [safe_serialize_object, hobj, is_non_serializable, hd, Tracker.enter, hv]


/-- C3: both snapshot collection functions terminate on every input — any
fuel beyond the remaining depth budget makes the embedded recursion return
a value (never the out-of-fuel marker): `collect_variable_value` because its
depth argument strictly increases toward `max_depth`, and
`safe_serialize_object` because the tracker's depth increases toward its
`max_depth` while the scoped identity set forbids revisiting an object on
the same path (cycles short-circuit to a marker instead of recursing). -/
theorem snapshot_collection_terminates (cfg : SnapCfg) (heap : Heap)
    (maxDepth maxProps : Nat) :
    (∀ fuel objId depth curSize, maxDepth - depth < fuel →
      (collect_variable_value cfg heap maxDepth fuel objId depth curSize).isSome)
    ∧ (∀ fuel objId t, t.max_depth - t.depth < fuel →
      (safe_serialize_object heap maxProps fuel objId t).isSome) :=
  ⟨fun fuel objId depth curSize h =>
      collect_variable_value_total cfg heap maxDepth fuel objId depth curSize h,
   fun fuel objId t h => (safe_serialize_object_props heap maxProps fuel).2 objId t h⟩

/-- Witness for `snapshot_collection_terminates`: the cyclic dict
`d = {'a': 1}; d['self'] = d` is fully processed by both functions with fuel
`max_depth + 1`. -/
theorem snapshot_collection_terminates_witness :
    (collect_variable_value ⟨3, 10, 10, 1000, 100, 10⟩
        (fun i => if i = 0 then PyObj.pydict [("a", 1), ("self", 0)] else PyObj.pyint 1)
        3 4 0 0 0).isSome
    ∧ (safe_serialize_object
        (fun i => if i = 0 then PyObj.pydict [("a", 1), ("self", 0)] else PyObj.pyint 1)
        100 4 0 (Tracker.init 3)).isSome :=
  ⟨(snapshot_collection_terminates ⟨3, 10, 10, 1000, 100, 10⟩
      (fun i => if i = 0 then PyObj.pydict [("a", 1), ("self", 0)] else PyObj.pyint 1)
      3 100).1 4 0 0 0 (by decide),
   (snapshot_collection_terminates ⟨3, 10, 10, 1000, 100, 10⟩
      (fun i => if i = 0 then PyObj.pydict [("a", 1), ("self", 0)] else PyObj.pyint 1)
      3 100).2 4 0 (Tracker.init 3) (by decide)⟩


/-! ## Marker search, used to state the refutations

The truncation and circular markers are ordinary dicts with the sentinel
keys `__tpd_truncated__` / `__tpd_circular__`; a snapshot "contains a
marker" iff some nested dict carries the sentinel key.  The search is
fueled; any fuel at least the value's height is exact, and the refutations
only apply it to concrete values. -/

/-- Does a serialized value contain a dict with the given sentinel key? -/
def svalHasKeyFuel (key : String) : Nat → SVal → Bool
  | 0, _ => false
  | fuel + 1, SVal.vdict es =>
    es.any (fun e => e.1 == key) || es.any (fun e => svalHasKeyFuel key fuel e.2)
  | fuel + 1, SVal.vlist items => items.any (fun v => svalHasKeyFuel key fuel v)
  | fuel + 1, SVal.vtuple items => items.any (fun v => svalHasKeyFuel key fuel v)
  | _ + 1, _ => false

/-- Does a collector `Value` tree contain a dict with the sentinel key? -/
def valueHasKeyFuel (key : String) : Nat → Value → Bool
  | 0, _ => false
  | fuel + 1, Value.ofDict _ es => es.any (fun e => valueHasKeyFuel key fuel e.2)
  | fuel + 1, Value.ofList _ items => items.any (fun v => valueHasKeyFuel key fuel v)
  | fuel + 1, Value.ofSafe _ sv => svalHasKeyFuel key (fuel + 1) sv
  | _ + 1, _ => false

/-- Does any variable of any frame of a snapshot contain the sentinel key? -/
def snapshotHasKeyFuel (key : String) (fuel : Nat) (s : Snapshot) : Bool :=
  s.frames.any (fun f => f.frameVars.any (fun v => valueHasKeyFuel key fuel v.value))

/-- The cyclic dict `d = {'a': n}; d['self'] = d` as a heap (object `0` is
`d`, object `1` the integer). -/
def cyclicDictHeap (n : Int) : Heap :=
  fun i => if i = 0 then PyObj.pydict [("a", 1), ("self", 0)] else PyObj.pyint n

/-- A list holding the same object twice in sibling positions (object `1`
appears at both indices; it is an object with one attribute `x = n`). -/
def sharedSiblingHeap (n : Int) : Heap :=
  fun i =>
    if i = 0 then PyObj.pylist [1, 1]
    else if i = 1 then PyObj.pyobjdict "P" [("x", 2)]
    else PyObj.pyint n

/-- C2 counterexample: `collect` on a frame whose local `d` is the cyclic
dict `d['self'] = d` terminates (depth budget 3) but its snapshot contains
no circular-reference marker anywhere — the cycle is silently cut by the
depth budget, because the collector's `collect_variable_value` path never
consults the `CircularReferenceTracker`. -/
theorem collect_cycle_has_no_marker_cex :
    collect ⟨3, 10, 10, 1000, 100, 10⟩ (cyclicDictHeap 1) [⟨12, "app.py", "f", [("d", 0)]⟩]
      = { frames := [⟨12,
            [⟨"d", "dict", Value.ofDict "dict"
              [("a", Value.ofInt "int" 1),
               ("self", Value.ofDict "dict"
                 [("a", Value.ofInt "int" 1),
                  ("self", Value.ofDict "dict" [])])]⟩],
            "app.py", "f"⟩],
          methodName := "f", file := "app.py" }
    ∧ snapshotHasKeyFuel "__tpd_circular__" 20
        (collect ⟨3, 10, 10, 1000, 100, 10⟩ (cyclicDictHeap 1)
          [⟨12, "app.py", "f", [("d", 0)]⟩]) = false :=
  ⟨rfl, rfl⟩

/-- C2 amended: `safe_serialize_object` — reached from the collector only
for non-serializable roots — does replace an actual cycle with the
circular-reference marker, and serializes an object shared by two sibling
branches fully in each (the identity set is scoped to the path); but
`collect`'s own `collect_variable_value` path never consults the tracker: on
the cyclic dict it terminates via the depth budget and emits no marker. -/
theorem cycle_marker_scoped_identity_set (n : Int) :
    safe_serialize_object (cyclicDictHeap n) 100 4 0 (Tracker.init 3)
      = some (Except.ok (SVal.vdict
          [("a", SVal.vint n), ("self", make_circular_reference_marker false)],
          Tracker.init 3))
    ∧ safe_serialize_object (sharedSiblingHeap n) 100 4 0 (Tracker.init 3)
      = some (Except.ok (SVal.vlist
          [SVal.vdict [("x", SVal.vint n)], SVal.vdict [("x", SVal.vint n)]],
          Tracker.init 3))
    ∧ valueHasKeyFuel "__tpd_circular__" 20
        (Value.ofDict "dict"
          [("a", Value.ofInt "int" 1),
           ("self", Value.ofDict "dict"
             [("a", Value.ofInt "int" 1), ("self", Value.ofDict "dict" [])])]) = false
    ∧ collect_variable_value ⟨3, 10, 10, 1000, 100, 10⟩ (cyclicDictHeap 1) 3 4 0 0 0
      = some (Except.ok (some (Value.ofDict "dict"
          [("a", Value.ofInt "int" 1),
           ("self", Value.ofDict "dict"
             [("a", Value.ofInt "int" 1), ("self", Value.ofDict "dict" [])])]), 20)) :=
  ⟨rfl, rfl, rfl, rfl⟩


/-- When a vector has more elements than `max_properties`, the
`safe_serialize_object` list loop emits one serialized element per input
element up to `max_properties` and then exactly the truncation marker
carrying `len(obj) - max_properties`. -/
lemma serListItems_truncates (ser : Nat → Tracker → SerResult) (mp total : Nat)
    (hP : ∀ cid t r, ser cid t = some r → trackerOfR r = t)
    (t : Tracker) (hQ : ∀ cid, (ser cid t).isSome) :
    ∀ (items : List Nat) (idx : Nat), idx ≤ mp → mp < idx + items.length →
      ∃ vs : List SVal, vs.length = mp - idx ∧
        serListItems ser mp total items idx t
          = some (vs ++ [truncationMarker ((total : Int) - mp)], t) := by
  intro items
  induction items with
  | nil =>
    intro idx h1 h2
    simp at h2
    omega
  | cons cid rest ih =>
    intro idx h1 h2
    by_cases hidx : idx ≥ mp
    · have hEq : idx = mp := by omega
      refine ⟨[], by simp; omega, ?_⟩
      subst hEq
      simp [serListItems]
    · rcases hser : ser cid t with _ | r
      · exact absurd (hQ cid) (by simp [hser])
      · have hr : trackerOfR r = t := hP cid t r hser
        obtain ⟨vs, hlen, hrec⟩ := ih (idx + 1) (by omega) (by simp at h2 ⊢; omega)
        rcases r with ⟨ty, t1⟩ | ⟨v, t1⟩ <;>
          simp only [trackerOfR] at hr <;>
          subst hr
        · exact ⟨errPlaceholder ty :: vs, by simp only [List.length_cons]; omega,
            by simp [serListItems, hidx, hser, hrec]⟩
        · exact ⟨v :: vs, by simp only [List.length_cons]; omega,
            by simp [serListItems, hidx, hser, hrec]⟩


/-- A three-element list of small integers (object `0` is the list). -/
def smallListHeap : Heap :=
  fun i => if i = 0 then PyObj.pylist [1, 2, 3] else PyObj.pyint (i : Int)

/-- C1 counterexample: `collect` on a frame whose local `xs` is a
3-element list while `max_properties = 2` serializes all three elements and
emits no truncation marker — the collector's `collect_variable_value` vector
branch never applies the per-container element limit (only
`safe_serialize_object`, reached for non-serializable roots only, does). -/
theorem collect_list_not_truncated_cex :
    collect ⟨3, 10, 10, 1000, 100, 2⟩ smallListHeap [⟨5, "app.py", "f", [("xs", 0)]⟩]
      = { frames := [⟨5,
            [⟨"xs", "list", Value.ofList "list"
              [Value.ofInt "int" 1, Value.ofInt "int" 2, Value.ofInt "int" 3]⟩],
            "app.py", "f"⟩],
          methodName := "f", file := "app.py" }
    ∧ snapshotHasKeyFuel "__tpd_truncated__" 20
        (collect ⟨3, 10, 10, 1000, 100, 2⟩ smallListHeap
          [⟨5, "app.py", "f", [("xs", 0)]⟩]) = false :=
  ⟨rfl, rfl⟩

/-- C1 amended: in `safe_serialize_object`, a list longer than
`max_properties` yields exactly `max_properties` serialized elements
followed by exactly one truncation marker whose remaining count is
`len - max_properties`; `collect_variable_value`, by contrast, applies no
element-count limit to vectors and emits no marker (a 3-element list with
`max_properties = 2` comes back whole). -/
theorem safe_serialize_list_truncation (heap : Heap) (maxProps : Nat)
    (items : List Nat) (objId : Nat) (t : Tracker) (fuel : Nat)
    (hheap : heap objId = PyObj.pylist items)
    (hlen : maxProps < items.length)
    (hv : objId ∉ t.visited)
    (hd : t.depth < t.max_depth)
    (hfuel : t.max_depth - t.depth < fuel) :
    (∃ vs : List SVal, vs.length = maxProps ∧
      safe_serialize_object heap maxProps fuel objId t
        = some (Except.ok (SVal.vlist
            (vs ++ [truncationMarker ((items.length : Int) - maxProps)]), t)))
    ∧ collect_variable_value ⟨3, 10, 10, 1000, 100, 2⟩ smallListHeap 3 4 0 0 0
        = some (Except.ok (some (Value.ofList "list"
            [Value.ofInt "int" 1, Value.ofInt "int" 2, Value.ofInt "int" 3]), 3)) := by
  refine ⟨?_, rfl⟩
  rcases fuel with _ | fuel
  · omega
  obtain ⟨ihP, ihQ⟩ := safe_serialize_object_props heap maxProps fuel
  have hnd : ¬ t.isMaxDepthReached = true := by
    simp [Tracker.isMaxDepthReached]
    omega
  have hQ1 : ∀ cid, (safe_serialize_object heap maxProps fuel cid
      ⟨t.max_depth, objId :: t.visited, t.depth + 1⟩).isSome :=
    fun cid => ihQ cid ⟨t.max_depth, objId :: t.visited, t.depth + 1⟩
      (show t.max_depth - (t.depth + 1) < fuel by omega)
  obtain ⟨vs, hvslen, heq⟩ :=
    serListItems_truncates (safe_serialize_object heap maxProps fuel) maxProps
      items.length ihP ⟨t.max_depth, objId :: t.visited, t.depth + 1⟩ hQ1 items 0
      (by omega) (by omega)
  refine ⟨vs, hvslen, ?_⟩
  simp only [safe_serialize_object, hheap, is_non_serializable, Bool.false_eq_true,
    if_false, hnd, Tracker.enter, hv, reduceIte, heq, Option.map_some']
  rw [Tracker.exit_enter t objId]

/-- Witness for `safe_serialize_list_truncation`: a 4-element list with
`max_properties = 2` serializes to two elements plus the marker with
`remaining = 2`. -/
theorem safe_serialize_list_truncation_witness :
    (∃ vs : List SVal, vs.length = 2 ∧
      safe_serialize_object
          (fun i => if i = 0 then PyObj.pylist [1, 2, 3, 4] else PyObj.pyint (i : Int))
          2 4 0 (Tracker.init 3)
        = some (Except.ok (SVal.vlist
            (vs ++ [truncationMarker ((([1, 2, 3, 4] : List Nat).length : Int) - 2)]),
            Tracker.init 3)))
    ∧ collect_variable_value ⟨3, 10, 10, 1000, 100, 2⟩ smallListHeap 3 4 0 0 0
        = some (Except.ok (some (Value.ofList "list"
            [Value.ofInt "int" 1, Value.ofInt "int" 2, Value.ofInt "int" 3]), 3)) :=
  safe_serialize_list_truncation
    (fun i => if i = 0 then PyObj.pylist [1, 2, 3, 4] else PyObj.pyint (i : Int))
    2 [1, 2, 3, 4] 0 (Tracker.init 3) 4 rfl (by decide) (by decide) (by decide) (by decide)


/-- Frame locals `a = 7`, `bad` (an object whose `__dict__` access raises
the named exception when serialized), `b = "hi"`. -/
def raisingLocalHeap (excTy : String) : Heap :=
  fun i =>
    if i = 0 then PyObj.pyint 7
    else if i = 1 then PyObj.pyraising excTy
    else PyObj.pystr ['h', 'i']

/-- A dict `{"x": bad}` whose single value raises on serialization. -/
def raisingFieldHeap (excTy : String) : Heap :=
  fun i => if i = 0 then PyObj.pydict [("x", 1)] else PyObj.pyraising excTy

/-- C9 counterexample: when the local `bad` raises during collection, the
frame is still collected and the other locals survive, but `bad` is skipped
outright (`except: continue`) — it is omitted from the output, not replaced
by a typed-error placeholder. -/
theorem failing_local_is_omitted_cex :
    ((collect_frame_locals ⟨3, 10, 10, 1000, 100, 10⟩ (raisingLocalHeap "RuntimeError")
        [("a", 0), ("bad", 1), ("b", 2)] 0 (Tracker.init 3)).1.map Variable.name)
      = ["a", "b"]
    ∧ "bad" ∉ ((collect_frame_locals ⟨3, 10, 10, 1000, 100, 10⟩
        (raisingLocalHeap "RuntimeError")
        [("a", 0), ("bad", 1), ("b", 2)] 0 (Tracker.init 3)).1.map Variable.name) :=
  ⟨rfl, by decide⟩

/-- C9 amended: a failing local never aborts the frame — every other local
is collected as usual — but at the top level of `collect_frame_locals` the
failing local is skipped (omitted), not replaced; only inside
`safe_serialize_object` is a failing nested field replaced by the
`<error serializing: ...>` placeholder. -/
theorem failing_local_skipped_field_replaced (nA nBad nB excTy : String) :
    (collect_frame_locals ⟨3, 10, 10, 1000, 100, 10⟩ (raisingLocalHeap excTy)
        [(nA, 0), (nBad, 1), (nB, 2)] 0 (Tracker.init 3)).1
      = [⟨nA, "int", Value.ofInt "int" 7⟩, ⟨nB, "str", Value.ofStr "str" ['h', 'i']⟩]
    ∧ safe_serialize_object (raisingFieldHeap excTy) 100 4 0 (Tracker.init 3)
      = some (Except.ok (SVal.vdict [("x", errPlaceholder excTy)], Tracker.init 3)) :=
  ⟨rfl, rfl⟩

end Debugin
